import Mathlib

/-!
A verification development for the addon-manifest normalization library
(`src/utils.rs` and `src/generics/manifest.rs`).

The Rust code is shallowly embedded:

* `i32` values are modelled as `Int`; the `str::parse::<i32>` range check
  (−2^31 ≤ n < 2^31) is explicit in `parseI32`.
* Rust panics (`unwrap` / `expect` / out-of-bounds indexing) are modelled as
  `Except.error` values.  The error kinds follow the taxonomy of the design
  document (§7): JSON-shape failures are `structuralDecodeError`, UUID parse
  failures are `malformedIdentifier`, version parse failures (including a
  missing third component) are `malformedVersionText`, and a missing `entry`
  on a script module or a dependency with neither `uuid` nor `module_name`
  is `missingRequiredVariantField`.
* `serde_json::from_str::<PreManifest>` is modelled as a decoder over an
  already-lexed JSON value tree (`Json`), following serde-derive semantics:
  every non-`Option` struct field is required, `Option` fields treat a
  missing key or `null` as `none`, the `#[serde(untagged)]` enum `PreVer`
  tries its variants in declaration order (`Vec<i32>` first, then `String`),
  and unknown object keys are ignored.
* `uuid::Uuid::from_str` is modelled for the hyphenated (8-4-4-4-12) and
  simple (32 hex digit) formats.
* The two `once_cell` static `HashMap`s are modelled as association lists
  (their keys are distinct, so lookup agrees with the hash map).
-/

/-- Error kinds for decode failures, per the design document's taxonomy. -/
inductive DecodeError where
  | structuralDecodeError
  | malformedIdentifier
  | malformedVersionText
  | missingRequiredVariantField
deriving DecidableEq, Repr

/-- `SemVer` from `src/utils.rs`: three `i32` components plus a beta flag. -/
structure SemVer where
  major : Int
  minor : Int
  patch : Int
  beta : Bool
deriving DecidableEq, Repr

/-- Decimal digit value of a character, as used by integer parsing. -/
def digitVal (c : Char) : Option Nat :=
  if '0' ≤ c ∧ c ≤ '9' then some (c.toNat - '0'.toNat) else none

/-- Accumulating decimal parser over a digit list (most significant first). -/
def parseDigitsAux : Nat → List Char → Option Nat
  | acc, [] => some acc
  | acc, c :: cs =>
    match digitVal c with
    | some d => parseDigitsAux (acc * 10 + d) cs
    | none => none

/-- Parse a non-empty all-digit character list as a natural number. -/
def parseDigits : List Char → Option Nat
  | [] => none
  | cs => parseDigitsAux 0 cs

/-- Model of Rust `str::parse::<i32>`: optional leading sign, at least one
digit, value within the `i32` range. -/
def parseI32 (cs : List Char) : Option Int :=
  match cs with
  | [] => none
  | c :: rest =>
    if c = '-' then
      (parseDigits rest).bind fun n =>
        if (n : Int) ≤ 2 ^ 31 then some (-(n : Int)) else none
    else if c = '+' then
      (parseDigits rest).bind fun n =>
        if (n : Int) < 2 ^ 31 then some (n : Int) else none
    else
      (parseDigits (c :: rest)).bind fun n =>
        if (n : Int) < 2 ^ 31 then some (n : Int) else none

/-- Model of Rust `src.contains("-beta")` (substring search for the literal
pattern `-beta`). -/
def containsBeta : List Char → Bool
  | '-' :: 'b' :: 'e' :: 't' :: 'a' :: _ => true
  | _ :: cs => containsBeta cs
  | [] => false

/-- Model of Rust `src.replace("-beta", "")`: remove every non-overlapping
occurrence of `-beta`, leftmost first. -/
def removeBeta : List Char → List Char
  | '-' :: 'b' :: 'e' :: 't' :: 'a' :: rest => removeBeta rest
  | c :: cs => c :: removeBeta cs
  | [] => []

/-- Model of Rust `str::split`: split a character list at every occurrence
of the separator; adjacent separators and ends yield empty pieces. -/
def splitOnChar (c : Char) : List Char → List (List Char)
  | [] => [[]]
  | x :: xs =>
    if x = c then [] :: splitOnChar c xs
    else
      match splitOnChar c xs with
      | [] => [[x]]
      | r :: rs => (x :: r) :: rs

/-- Rust slice indexing `l[i]`: out of bounds is a panic, modelled as the
given error. -/
def listIdx (l : List α) (i : Nat) (e : DecodeError) : Except DecodeError α :=
  match l.get? i with
  | some x => .ok x
  | none => .error e

/-- One component of a dotted version string: index into the split pieces,
then parse as `i32`; both the out-of-bounds panic and the
`expect("Couldn't parse SemVer")` panic are `malformedVersionText`. -/
def parseComponent (l : List (List Char)) (i : Nat) : Except DecodeError Int := do
  let cs ← listIdx l i .malformedVersionText
  match parseI32 cs with
  | some n => .ok n
  | none => .error .malformedVersionText

/-- `parse_semver_from_str` from `src/utils.rs`: detect and strip the
`-beta` marker, split on `.`, parse components 0, 1, 2 as `i32`. -/
def parse_semver_from_str (src : String) : Except DecodeError SemVer := do
  let beta := containsBeta src.data
  let new_src := removeBeta src.data
  let split_str := splitOnChar '.' new_src
  let major ← parseComponent split_str 0
  let minor ← parseComponent split_str 1
  let patch ← parseComponent split_str 2
  .ok { major := major, minor := minor, patch := patch, beta := beta }

/-- `parse_semver_from_vec` from `src/utils.rs`: take elements 0, 1, 2 of the
integer list (out of bounds panics); `beta` is always `false`. -/
def parse_semver_from_vec (src : List Int) : Except DecodeError SemVer := do
  let major ← listIdx src 0 .malformedVersionText
  let minor ← listIdx src 1 .malformedVersionText
  let patch ← listIdx src 2 .malformedVersionText
  .ok { major := major, minor := minor, patch := patch, beta := false }

/-- The `#[serde(untagged)]` enum `PreVer` from `src/generics/manifest.rs`:
a raw version is either an integer array or a string. -/
inductive PreVer where
  | Vec (v : List Int)
  | Str (s : String)
deriving DecidableEq, Repr

/-- `PreManifestHeader`: note that `min_engine_version` and `version` are
typed `Vec<i32>` in the source — not `PreVer`. -/
structure PreManifestHeader where
  name : String
  description : String
  min_engine_version : List Int
  uuid : String
  version : List Int
deriving DecidableEq, Repr

/-- `PreManifestModule` (the raw `type` key is field `type_id`). -/
structure PreManifestModule where
  type_id : String
  uuid : String
  version : List Int
  language : Option String
  entry : Option String
  description : Option String
deriving DecidableEq, Repr

/-- `PreManifestDependency`: both reference fields optional, `version`
required and polymorphic over the two encodings. -/
structure PreManifestDependency where
  uuid : Option String
  module_name : Option String
  version : PreVer
deriving DecidableEq, Repr

/-- `ManifestSubpack`: already primitive, passed through unchanged. -/
structure ManifestSubpack where
  folder_name : String
  name : String
  memory_tier : Int
deriving DecidableEq, Repr

/-- `PreManifest`: the intermediate loosely-typed representation. -/
structure PreManifest where
  format_version : Int
  header : PreManifestHeader
  modules : List PreManifestModule
  dependencies : List PreManifestDependency
  capabilities : List String
  subpacks : List ManifestSubpack
deriving DecidableEq, Repr

/-- A parsed UUID: its 128-bit value. -/
structure Uuid where
  val : Nat
deriving DecidableEq, Repr

/-- `ManifestHeader`: the normalized header. -/
structure ManifestHeader where
  uuid : Uuid
  name : String
  description : String
  min_engine_version : SemVer
  version : SemVer
deriving DecidableEq, Repr

/-- `ScriptManifestModule`: the script entry point. -/
structure ScriptManifestModule where
  entry : String
deriving DecidableEq, Repr

/-- `ManifestModule`: the normalized module variants. -/
inductive ManifestModule where
  | Data (id : Uuid) (version : SemVer)
  | Resources (id : Uuid) (version : SemVer)
  | Script (id : Uuid) (version : SemVer) (script : ScriptManifestModule)
deriving DecidableEq, Repr

/-- `ScriptManifestDependency`: known first-party script APIs plus a
catch-all. -/
inductive ScriptManifestDependency where
  | MinecraftServer
  | MinecraftServerUi
  | MinecraftServerNet
  | MinecraftServerGametest
  | MinecraftServerAdmin
  | MinecraftServerEditor
  | MinecraftDebugUtilities
  | Custom (s : String)
deriving DecidableEq, Repr

/-- `ManifestCapability`: known capability flags plus a catch-all. -/
inductive ManifestCapability where
  | Chemistry
  | EditorExtension
  | ExperimentalCustomUi
  | PBR
  | ScriptEval
  | Raytraced
  | Custom (s : String)
deriving DecidableEq, Repr

/-- `ManifestDependency`: the two normalized dependency reference styles. -/
inductive ManifestDependency where
  | ScriptDependency (name : ScriptManifestDependency) (version : SemVer)
  | UuidDependency (id : Uuid) (version : SemVer)
deriving DecidableEq, Repr

/-- `Manifest`: the root normalized value. -/
structure Manifest where
  header : ManifestHeader
  modules : List ManifestModule
  dependencies : List ManifestDependency
  subpacks : List ManifestSubpack
  capabilities : List ManifestCapability
deriving DecidableEq, Repr

/-- The static `SCRIPT_MANIFEST_DEPENDENCIES` table, as an association list
(the keys are pairwise distinct, so lookup agrees with the `HashMap`). -/
def SCRIPT_MANIFEST_DEPENDENCIES : List (String × ScriptManifestDependency) :=
  [("@minecraft/server", .MinecraftServer),
   ("@minecraft/server-ui", .MinecraftServerUi),
   ("@minecraft/server-gametest", .MinecraftServerGametest),
   ("@minecraft/server-net", .MinecraftServerNet),
   ("@minecraft/server-admin", .MinecraftServerAdmin),
   ("@minecraft/server-editor", .MinecraftServerEditor),
   ("@minecraft/debug-utilities", .MinecraftDebugUtilities)]

/-- The static `MANIFEST_CAPABILITIES` table, as an association list. -/
def MANIFEST_CAPABILITIES : List (String × ManifestCapability) :=
  [("raytraced", .Raytraced),
   ("chemistry", .Chemistry),
   ("editorExtension", .EditorExtension),
   ("experimental_custom_ui", .ExperimentalCustomUi),
   ("pbr", .PBR),
   ("script_eval", .ScriptEval)]

/-- `HashMap::get` on the static tables: exact, case-sensitive key match. -/
def lookupAssoc (t : List (String × α)) (k : String) : Option α :=
  (t.find? fun p => p.1 == k).map (·.2)

/-- The capability loop body: try the static table, else wrap in `Custom`. -/
def resolveCapability (s : String) : ManifestCapability :=
  match lookupAssoc MANIFEST_CAPABILITIES s with
  | some c => c
  | none => .Custom s

/-- The script-dependency name resolution: try the static table, else wrap
in `Custom`. -/
def resolveScriptDependency (s : String) : ScriptManifestDependency :=
  match lookupAssoc SCRIPT_MANIFEST_DEPENDENCIES s with
  | some d => d
  | none => .Custom s

/-- Hexadecimal digit value of a character. -/
def hexVal (c : Char) : Option Nat :=
  if '0' ≤ c ∧ c ≤ '9' then some (c.toNat - '0'.toNat)
  else if 'a' ≤ c ∧ c ≤ 'f' then some (c.toNat - 'a'.toNat + 10)
  else if 'A' ≤ c ∧ c ≤ 'F' then some (c.toNat - 'A'.toNat + 10)
  else none

/-- Accumulating hexadecimal parser over a character list. -/
def parseHexAux : Nat → List Char → Option Nat
  | acc, [] => some acc
  | acc, c :: cs =>
    match hexVal c with
    | some d => parseHexAux (acc * 16 + d) cs
    | none => none

/-- Model of `uuid::Uuid::from_str` / `Uuid::parse_str`, restricted to the
hyphenated `8-4-4-4-12` and simple 32-hex-digit formats; any other shape is
a `malformedIdentifier` failure. -/
def parseUuid (s : String) : Except DecodeError Uuid :=
  match splitOnChar '-' s.data with
  | [g1, g2, g3, g4, g5] =>
    if g1.length = 8 ∧ g2.length = 4 ∧ g3.length = 4 ∧ g4.length = 4 ∧
        g5.length = 12 then
      match parseHexAux 0 (g1 ++ g2 ++ g3 ++ g4 ++ g5) with
      | some n => .ok ⟨n⟩
      | none => .error .malformedIdentifier
    else .error .malformedIdentifier
  | [g] =>
    if g.length = 32 then
      match parseHexAux 0 g with
      | some n => .ok ⟨n⟩
      | none => .error .malformedIdentifier
    else .error .malformedIdentifier
  | _ => .error .malformedIdentifier

/-- A JSON value tree (the output of `serde_json`'s lexer).  Numbers are
modelled as integers — no claim involves fractional literals, which would
simply fail to decode into the all-integer intermediate representation. -/
inductive Json where
  | null
  | bool (b : Bool)
  | num (n : Int)
  | str (s : String)
  | arr (xs : List Json)
  | obj (fields : List (String × Json))

/-- Look up a key in a JSON object (first occurrence). -/
def getField (fields : List (String × Json)) (k : String) : Option Json :=
  (fields.find? fun p => p.1 == k).map (·.2)

/-- A required struct field: absence is a shape error. -/
def reqField (fields : List (String × Json)) (k : String) :
    Except DecodeError Json :=
  match getField fields k with
  | some j => .ok j
  | none => .error .structuralDecodeError

/-- Decode an `i32`: a JSON number within the `i32` range. -/
def decodeI32 : Json → Except DecodeError Int
  | .num n =>
    if -(2 ^ 31) ≤ n ∧ n < 2 ^ 31 then .ok n else .error .structuralDecodeError
  | _ => .error .structuralDecodeError

/-- Decode a `String`: a JSON string. -/
def decodeString : Json → Except DecodeError String
  | .str s => .ok s
  | _ => .error .structuralDecodeError

/-- Effectful map over a list, failing at the first error (the order in
which `serde` decodes sequence elements). -/
def mapME (f : α → Except DecodeError β) :
    List α → Except DecodeError (List β)
  | [] => .ok []
  | x :: xs => do
    let y ← f x
    let ys ← mapME f xs
    .ok (y :: ys)

/-- Decode a `Vec<i32>`: a JSON array of `i32`s. -/
def decodeVecI32 : Json → Except DecodeError (List Int)
  | .arr xs => mapME decodeI32 xs
  | _ => .error .structuralDecodeError

/-- Decode a JSON array elementwise. -/
def decodeArr (f : Json → Except DecodeError α) :
    Json → Except DecodeError (List α)
  | .arr xs => mapME f xs
  | _ => .error .structuralDecodeError

/-- An `Option<String>` struct field: missing key or `null` is `none`; a
present non-null value must be a string. -/
def optStringField (fields : List (String × Json)) (k : String) :
    Except DecodeError (Option String) :=
  match getField fields k with
  | none => .ok none
  | some .null => .ok none
  | some j => (decodeString j).map some

/-- Decode the untagged `PreVer`: serde tries the variants in declaration
order — `Vec(Vec<i32>)` first, then `Str(String)`. -/
def decodePreVer (j : Json) : Except DecodeError PreVer :=
  match decodeVecI32 j with
  | .ok v => .ok (.Vec v)
  | .error _ =>
    match decodeString j with
    | .ok s => .ok (.Str s)
    | .error _ => .error .structuralDecodeError

/-- Decode `PreManifestHeader`.  Both version fields are `Vec<i32>` — a
dotted-string header version is a shape error. -/
def decodePreManifestHeader : Json → Except DecodeError PreManifestHeader
  | .obj fields => do
    let name ← decodeString (← reqField fields "name")
    let description ← decodeString (← reqField fields "description")
    let min_engine_version ← decodeVecI32 (← reqField fields "min_engine_version")
    let uuid ← decodeString (← reqField fields "uuid")
    let version ← decodeVecI32 (← reqField fields "version")
    .ok ⟨name, description, min_engine_version, uuid, version⟩
  | _ => .error .structuralDecodeError

/-- Decode `PreManifestModule` (the `type_id` field is renamed from the
JSON key `type`). -/
def decodePreManifestModule : Json → Except DecodeError PreManifestModule
  | .obj fields => do
    let type_id ← decodeString (← reqField fields "type")
    let uuid ← decodeString (← reqField fields "uuid")
    let version ← decodeVecI32 (← reqField fields "version")
    let language ← optStringField fields "language"
    let entry ← optStringField fields "entry"
    let description ← optStringField fields "description"
    .ok ⟨type_id, uuid, version, language, entry, description⟩
  | _ => .error .structuralDecodeError

/-- Decode `PreManifestDependency`: `uuid` and `module_name` optional,
`version` required (in either encoding). -/
def decodePreManifestDependency :
    Json → Except DecodeError PreManifestDependency
  | .obj fields => do
    let uuid ← optStringField fields "uuid"
    let module_name ← optStringField fields "module_name"
    let version ← decodePreVer (← reqField fields "version")
    .ok ⟨uuid, module_name, version⟩
  | _ => .error .structuralDecodeError

/-- Decode `ManifestSubpack`. -/
def decodeManifestSubpack : Json → Except DecodeError ManifestSubpack
  | .obj fields => do
    let folder_name ← decodeString (← reqField fields "folder_name")
    let name ← decodeString (← reqField fields "name")
    let memory_tier ← decodeI32 (← reqField fields "memory_tier")
    .ok ⟨folder_name, name, memory_tier⟩
  | _ => .error .structuralDecodeError

/-- Decode `PreManifest`: every field of the struct is required. -/
def decodePreManifest : Json → Except DecodeError PreManifest
  | .obj fields => do
    let format_version ← decodeI32 (← reqField fields "format_version")
    let header ← decodePreManifestHeader (← reqField fields "header")
    let modules ← decodeArr decodePreManifestModule (← reqField fields "modules")
    let dependencies ←
      decodeArr decodePreManifestDependency (← reqField fields "dependencies")
    let capabilities ← decodeArr decodeString (← reqField fields "capabilities")
    let subpacks ← decodeArr decodeManifestSubpack (← reqField fields "subpacks")
    .ok ⟨format_version, header, modules, dependencies, capabilities, subpacks⟩
  | _ => .error .structuralDecodeError

/-- The version dispatch shared by both dependency branches: a string goes
through `parse_semver_from_str`, an integer array through
`parse_semver_from_vec`.  (The source writes this as an `if let` chain with
a default `SemVer { 1, 0, 0, false }` in a final `else`; that `else` is
unreachable because `PreVer` has exactly these two variants.) -/
def depVersion : PreVer → Except DecodeError SemVer
  | .Str s => parse_semver_from_str s
  | .Vec v => parse_semver_from_vec v

/-- One iteration of the module loop.  `none` means the record was dropped
(unrecognized `type`); the `unwrap`s on the UUID and on `entry` are the
source's panics, in the source's evaluation order. -/
def normalizeModule (m : PreManifestModule) :
    Except DecodeError (Option ManifestModule) :=
  if m.type_id = "script" then do
    let u ← parseUuid m.uuid
    let v ← parse_semver_from_vec m.version
    match m.entry with
    | some e => .ok (some (.Script u v ⟨e⟩))
    | none => .error .missingRequiredVariantField
  else if m.type_id = "data" ∨ m.type_id = "resources" then do
    let u ← parseUuid m.uuid
    let v ← parse_semver_from_vec m.version
    .ok (some (.Data u v))
  else .ok none

/-- The module loop: process records in order, keeping the pushed modules
in order and stopping at the first failure. -/
def normalizeModules : List PreManifestModule →
    Except DecodeError (List ManifestModule)
  | [] => .ok []
  | m :: rest => do
    match ← normalizeModule m with
    | some x => do
      let tail ← normalizeModules rest
      .ok (x :: tail)
    | none => normalizeModules rest

/-- One iteration of the dependency loop: a present `module_name` takes
precedence and is resolved against the static table; otherwise `uuid` is
required (its absence is the source's `unwrap` panic on `None`). -/
def normalizeDependency (d : PreManifestDependency) :
    Except DecodeError ManifestDependency :=
  match d.module_name with
  | some mn => do
    let v ← depVersion d.version
    .ok (.ScriptDependency (resolveScriptDependency mn) v)
  | none =>
    match d.uuid with
    | some u => do
      let uu ← parseUuid u
      let v ← depVersion d.version
      .ok (.UuidDependency uu v)
    | none => .error .missingRequiredVariantField

/-- The dependency loop: every record yields a dependency or fails. -/
def normalizeDependencies : List PreManifestDependency →
    Except DecodeError (List ManifestDependency)
  | [] => .ok []
  | d :: rest => do
    let x ← normalizeDependency d
    let tail ← normalizeDependencies rest
    .ok (x :: tail)

/-- The normalization half of `deserialize_manifest_from_str`: header
conversion (in the source's field evaluation order: `min_engine_version`,
`version`, then the header UUID), then the module loop, the dependency
loop, subpack pass-through, and the capability loop (which cannot fail). -/
def normalizePre (p : PreManifest) : Except DecodeError Manifest := do
  let mev ← parse_semver_from_vec p.header.min_engine_version
  let ver ← parse_semver_from_vec p.header.version
  let uu ← parseUuid p.header.uuid
  let modules ← normalizeModules p.modules
  let dependencies ← normalizeDependencies p.dependencies
  .ok
    { header := ⟨uu, p.header.name, p.header.description, mev, ver⟩
      modules := modules
      dependencies := dependencies
      subpacks := p.subpacks
      capabilities := p.capabilities.map resolveCapability }

/-- `deserialize_manifest_from_str` from `src/generics/manifest.rs`, taking
the already-lexed JSON tree: structural decode into `PreManifest`
(`serde_json::from_str(..).unwrap()`), then normalization. -/
def deserialize_manifest_from_str (j : Json) : Except DecodeError Manifest := do
  let pre ← decodePreManifest j
  normalizePre pre

/-! ### Generic inversion lemmas for the `Except` monad -/

theorem exceptBind_eq_ok {α β : Type u} {x : Except DecodeError α}
    {f : α → Except DecodeError β} {b : β} :
    x >>= f = .ok b ↔ ∃ a, x = .ok a ∧ f a = .ok b := by
  cases x <;> simp [Bind.bind, Except.bind]

theorem exceptBind_ok {α β : Type u}
    {f : α → Except DecodeError β} (a : α) :
    (Except.ok a : Except DecodeError α) >>= f = f a := rfl

theorem exceptBind_error {α β : Type u}
    {f : α → Except DecodeError β} (e : DecodeError) :
    (Except.error e : Except DecodeError α) >>= f = .error e := rfl

/-! ### Lemmas about the loops -/

theorem mapME_ok_forall {f : α → Except DecodeError β} :
    ∀ {l : List α} {r : List β}, mapME f l = .ok r →
      ∀ a ∈ l, ∃ b, f a = .ok b := by
  intro l
  induction l with
  | nil => intro r _ a ha; cases ha
  | cons x xs ih =>
    intro r h a ha
    rw [mapME, exceptBind_eq_ok] at h
    obtain ⟨y, hy, h⟩ := h
    rw [exceptBind_eq_ok] at h
    obtain ⟨ys, hys, _⟩ := h
    rcases List.mem_cons.mp ha with rfl | ha
    · exact ⟨y, hy⟩
    · exact ih hys a ha

theorem mapME_map_num {v : List Int}
    (h : ∀ n ∈ v, -(2 ^ 31) ≤ n ∧ n < 2 ^ 31) :
    mapME decodeI32 (v.map Json.num) = .ok v := by
  induction v with
  | nil => rfl
  | cons n ns ih =>
    have hn := h n (List.mem_cons_self n ns)
    have hns := ih fun m hm => h m (List.mem_cons_of_mem n hm)
    simp only [List.map_cons, mapME, decodeI32, hn, and_self, if_pos,
      exceptBind_ok, hns]

theorem normalizeDependencies_ok_forall :
    ∀ {l : List PreManifestDependency} {r : List ManifestDependency},
      normalizeDependencies l = .ok r →
      ∀ d ∈ l, ∃ x, normalizeDependency d = .ok x := by
  intro l
  induction l with
  | nil => intro r _ d hd; cases hd
  | cons a as ih =>
    intro r h d hd
    rw [normalizeDependencies, exceptBind_eq_ok] at h
    obtain ⟨x, hx, h⟩ := h
    rw [exceptBind_eq_ok] at h
    obtain ⟨xs, hxs, _⟩ := h
    rcases List.mem_cons.mp hd with rfl | hd
    · exact ⟨x, hx⟩
    · exact ih hxs d hd

theorem normalizeModules_ok_forall :
    ∀ {l : List PreManifestModule} {r : List ManifestModule},
      normalizeModules l = .ok r →
      ∀ m ∈ l, ∃ o, normalizeModule m = .ok o := by
  intro l
  induction l with
  | nil => intro r _ m hm; cases hm
  | cons a as ih =>
    intro r h m hm
    rw [normalizeModules, exceptBind_eq_ok] at h
    obtain ⟨o, ho, h⟩ := h
    rcases List.mem_cons.mp hm with rfl | hm
    · exact ⟨o, ho⟩
    · rcases o with _ | x
      · exact ih h m hm
      · rw [exceptBind_eq_ok] at h
        obtain ⟨xs, hxs, _⟩ := h
        exact ih hxs m hm

/-- Inversion of a successful `normalizePre` run: every stage succeeded and
the manifest is assembled from the stage results. -/
theorem normalizePre_ok {p : PreManifest} {m : Manifest}
    (h : normalizePre p = .ok m) :
    ∃ mev ver uu mods deps,
      parse_semver_from_vec p.header.min_engine_version = .ok mev ∧
      parse_semver_from_vec p.header.version = .ok ver ∧
      parseUuid p.header.uuid = .ok uu ∧
      normalizeModules p.modules = .ok mods ∧
      normalizeDependencies p.dependencies = .ok deps ∧
      m = ⟨⟨uu, p.header.name, p.header.description, mev, ver⟩, mods, deps,
            p.subpacks, p.capabilities.map resolveCapability⟩ := by
  rw [normalizePre, exceptBind_eq_ok] at h
  obtain ⟨mev, h1, h⟩ := h
  rw [exceptBind_eq_ok] at h
  obtain ⟨ver, h2, h⟩ := h
  rw [exceptBind_eq_ok] at h
  obtain ⟨uu, h3, h⟩ := h
  rw [exceptBind_eq_ok] at h
  obtain ⟨mods, h4, h⟩ := h
  rw [exceptBind_eq_ok] at h
  obtain ⟨deps, h5, h⟩ := h
  cases h
  exact ⟨mev, ver, uu, mods, deps, h1, h2, h3, h4, h5, rfl⟩

/-! ### Facts about the version-string parser -/

theorem parseComponent_error {l : List (List Char)} {i : Nat} {e : DecodeError}
    (h : parseComponent l i = .error e) : e = .malformedVersionText := by
  rw [parseComponent, listIdx] at h
  cases hg : l.get? i with
  | none =>
    rw [hg] at h
    rw [exceptBind_error] at h
    cases h
    rfl
  | some cs =>
    rw [hg] at h
    rw [exceptBind_ok] at h
    cases hp : parseI32 cs with
    | none => rw [hp] at h; cases h; rfl
    | some n => rw [hp] at h; cases h

theorem parseComponent_oob {l : List (List Char)} {i : Nat}
    (h : l.length ≤ i) :
    parseComponent l i = .error .malformedVersionText := by
  rw [parseComponent, listIdx, List.get?_eq_none.mpr h]
  rfl

theorem parseComponent_ok {l : List (List Char)} {i : Nat} {n : Int} :
    parseComponent l i = .ok n ↔
      ∃ cs, l.get? i = some cs ∧ parseI32 cs = some n := by
  rw [parseComponent, listIdx]
  cases hg : l.get? i with
  | none =>
    rw [exceptBind_error]
    simp
  | some cs =>
    rw [exceptBind_ok]
    cases hp : parseI32 cs with
    | none => simp [hp]
    | some k =>
      simp only [Option.some.injEq, exists_eq_left', hp]
      constructor
      · intro h; cases h; rfl
      · intro h; cases h; rfl

/-! ### Facts about module normalization -/

theorem normalizeModule_ok_some {m : PreManifestModule} {y : ManifestModule}
    (h : normalizeModule m = .ok (some y)) :
    (∃ u v e, y = .Script u v e) ∨ ∃ u v, y = .Data u v := by
  rw [normalizeModule] at h
  split at h
  · rw [exceptBind_eq_ok] at h
    obtain ⟨u, _, h⟩ := h
    rw [exceptBind_eq_ok] at h
    obtain ⟨v, _, h⟩ := h
    cases he : m.entry with
    | some e => rw [he] at h; cases h; exact .inl ⟨u, v, ⟨e⟩, rfl⟩
    | none => rw [he] at h; cases h
  · split at h
    · rw [exceptBind_eq_ok] at h
      obtain ⟨u, _, h⟩ := h
      rw [exceptBind_eq_ok] at h
      obtain ⟨v, _, h⟩ := h
      cases h
      exact .inr ⟨u, v, rfl⟩
    · cases h

theorem normalizeModules_ok_mem :
    ∀ {l : List PreManifestModule} {r : List ManifestModule},
      normalizeModules l = .ok r →
      ∀ x ∈ r, (∃ u v e, x = .Script u v e) ∨ ∃ u v, x = .Data u v := by
  intro l
  induction l with
  | nil =>
    intro r h x hx
    cases h
    cases hx
  | cons a as ih =>
    intro r h x hx
    rw [normalizeModules, exceptBind_eq_ok] at h
    obtain ⟨o, ho, h⟩ := h
    rcases o with _ | y
    · exact ih h x hx
    · rw [exceptBind_eq_ok] at h
      obtain ⟨tail, htail, h⟩ := h
      cases h
      rcases List.mem_cons.mp hx with rfl | hx
      · exact normalizeModule_ok_some ho
      · exact ih htail x hx

/-! ### A concrete example document, its intermediate representation, and
its normalized manifest (used to instantiate the claim theorems) -/

def exampleDoc : Json := .obj [
  ("format_version", .num 2),
  ("header", .obj [
    ("name", .str "pack"), ("description", .str "d"),
    ("min_engine_version", .arr [.num 1, .num 20, .num 0]),
    ("uuid", .str "00000000-0000-0000-0000-00000000abcd"),
    ("version", .arr [.num 1, .num 0, .num 0])]),
  ("modules", .arr [
    .obj [("type", .str "script"),
          ("uuid", .str "00000000-0000-0000-0000-000000000001"),
          ("version", .arr [.num 1, .num 0, .num 0]),
          ("entry", .str "main.js")],
    .obj [("type", .str "plugin"),
          ("uuid", .str "00000000-0000-0000-0000-000000000002"),
          ("version", .arr [.num 1, .num 0, .num 0])],
    .obj [("type", .str "resources"),
          ("uuid", .str "00000000-0000-0000-0000-000000000003"),
          ("version", .arr [.num 2, .num 1, .num 3])]]),
  ("dependencies", .arr [
    .obj [("module_name", .str "@minecraft/server"),
          ("version", .str "1.2.0-beta")],
    .obj [("uuid", .str "00000000-0000-0000-0000-000000000004"),
          ("version", .arr [.num 1, .num 2, .num 3])]]),
  ("capabilities", .arr [.str "raytraced", .str "custom_flag"]),
  ("subpacks", .arr [])]

def examplePre : PreManifest :=
  { format_version := 2
    header := ⟨"pack", "d", [1, 20, 0],
               "00000000-0000-0000-0000-00000000abcd", [1, 0, 0]⟩
    modules := [⟨"script", "00000000-0000-0000-0000-000000000001", [1, 0, 0],
                 none, some "main.js", none⟩,
                ⟨"plugin", "00000000-0000-0000-0000-000000000002", [1, 0, 0],
                 none, none, none⟩,
                ⟨"resources", "00000000-0000-0000-0000-000000000003", [2, 1, 3],
                 none, none, none⟩]
    dependencies := [⟨none, some "@minecraft/server", .Str "1.2.0-beta"⟩,
                     ⟨some "00000000-0000-0000-0000-000000000004", none,
                      .Vec [1, 2, 3]⟩]
    capabilities := ["raytraced", "custom_flag"]
    subpacks := [] }

def exampleManifest : Manifest :=
  { header := ⟨⟨0xabcd⟩, "pack", "d", ⟨1, 20, 0, false⟩, ⟨1, 0, 0, false⟩⟩
    modules := [.Script ⟨1⟩ ⟨1, 0, 0, false⟩ ⟨"main.js"⟩,
                .Data ⟨3⟩ ⟨2, 1, 3, false⟩]
    dependencies := [.ScriptDependency .MinecraftServer ⟨1, 2, 0, true⟩,
                     .UuidDependency ⟨4⟩ ⟨1, 2, 3, false⟩]
    subpacks := []
    capabilities := [.Raytraced, .Custom "custom_flag"] }

/-! ### Claim theorems -/

/-- Claim C7: a module record with type `"data"` and one with type
`"resources"` that agree on `uuid` and `version` normalize identically, and
(when the uuid and version parse) to `Module.Data` with the same payload. -/
theorem data_resources_collapse (u : String) (v : List Int)
    (l1 e1 d1 l2 e2 d2 : Option String) :
    normalizeModule ⟨"data", u, v, l1, e1, d1⟩ =
      normalizeModule ⟨"resources", u, v, l2, e2, d2⟩ ∧
    ∀ uu vv, parseUuid u = .ok uu → parse_semver_from_vec v = .ok vv →
      normalizeModule ⟨"data", u, v, l1, e1, d1⟩ =
        .ok (some (.Data uu vv)) := by
  constructor
  · simp only [normalizeModule]
    norm_num
    rw [if_neg (by decide), if_neg (by decide)]
  · intro uu vv h1 h2
    simp only [normalizeModule]
    norm_num
    rw [if_neg (by decide), h1, exceptBind_ok, h2, exceptBind_ok]

/-- Claim C7 witness: instantiated at a concrete uuid and version. -/
theorem data_resources_collapse_witness :
    normalizeModule ⟨"data", "00000000-0000-0000-0000-000000000003",
        [2, 1, 3], none, none, none⟩ =
      normalizeModule ⟨"resources", "00000000-0000-0000-0000-000000000003",
        [2, 1, 3], none, some "x", none⟩ ∧
    normalizeModule ⟨"data", "00000000-0000-0000-0000-000000000003",
        [2, 1, 3], none, none, none⟩ =
      .ok (some (.Data ⟨3⟩ ⟨2, 1, 3, false⟩)) := by
  have h := data_resources_collapse "00000000-0000-0000-0000-000000000003"
    [2, 1, 3] none none none none (some "x") none
  exact ⟨h.1, h.2 ⟨3⟩ ⟨2, 1, 3, false⟩ rfl rfl⟩

/-- Claim C9: the normalized capability sequence is the input sequence
mapped, in order, through exact (case-sensitive) lookup in the static
capability table; `"raytraced"` resolves to the known variant and a string
absent from the table resolves to `Custom` carrying the original string. -/
theorem capability_resolution :
    (∀ p m, normalizePre p = .ok m →
      m.capabilities = p.capabilities.map resolveCapability) ∧
    resolveCapability "raytraced" = .Raytraced ∧
    (∀ s, lookupAssoc MANIFEST_CAPABILITIES s = none →
      resolveCapability s = .Custom s) := by
  refine ⟨?_, rfl, ?_⟩
  · intro p m h
    obtain ⟨mev, ver, uu, mods, deps, _, _, _, _, _, rfl⟩ := normalizePre_ok h
    rfl
  · intro s h
    rw [resolveCapability, h]

/-- Claim C9 witness: instantiated on the example document (capabilities
`["raytraced", "custom_flag"]`). -/
theorem capability_resolution_witness :
    exampleManifest.capabilities =
      examplePre.capabilities.map resolveCapability ∧
    resolveCapability "custom_flag" = .Custom "custom_flag" :=
  ⟨capability_resolution.1 examplePre exampleManifest rfl,
   capability_resolution.2.2 "custom_flag" rfl⟩

/-- Claim C10: a successfully normalized manifest never contains a module
of the `Resources` variant — no input record is mapped to it. -/
theorem no_resources_variant (j : Json) (m : Manifest)
    (h : deserialize_manifest_from_str j = .ok m) :
    ∀ x ∈ m.modules, ∀ u v, x ≠ .Resources u v := by
  rw [deserialize_manifest_from_str, exceptBind_eq_ok] at h
  obtain ⟨pre, _, h⟩ := h
  obtain ⟨mev, ver, uu, mods, deps, _, _, _, h4, _, rfl⟩ := normalizePre_ok h
  intro x hx u v
  rcases normalizeModules_ok_mem h4 x hx with ⟨u', v', e', rfl⟩ | ⟨u', v', rfl⟩ <;>
    intro hc <;> cases hc

/-- Claim C10 witness: the example document (which contains a raw
`"resources"` module record) normalizes with no `Resources` value. -/
theorem no_resources_variant_witness :
    deserialize_manifest_from_str exampleDoc = .ok exampleManifest ∧
    ∀ x ∈ exampleManifest.modules, ∀ u v,
      x ≠ ManifestModule.Resources u v :=
  ⟨rfl, no_resources_variant exampleDoc exampleManifest rfl⟩

/-- A document whose only dependency record has neither `uuid` nor
`module_name`. -/
def docMissingDep : Json := .obj [
  ("format_version", .num 2),
  ("header", .obj [
    ("name", .str "pack"), ("description", .str "d"),
    ("min_engine_version", .arr [.num 1, .num 20, .num 0]),
    ("uuid", .str "00000000-0000-0000-0000-00000000abcd"),
    ("version", .arr [.num 1, .num 0, .num 0])]),
  ("modules", .arr []),
  ("dependencies", .arr [
    .obj [("version", .arr [.num 1, .num 0, .num 0])]]),
  ("capabilities", .arr []),
  ("subpacks", .arr [])]

/-- The intermediate representation `docMissingDep` decodes to. -/
def preMissingDep : PreManifest :=
  { format_version := 2
    header := ⟨"pack", "d", [1, 20, 0],
               "00000000-0000-0000-0000-00000000abcd", [1, 0, 0]⟩
    modules := []
    dependencies := [⟨none, none, .Vec [1, 0, 0]⟩]
    capabilities := []
    subpacks := [] }

/-- Claim C3: a dependency record with neither `uuid` nor `module_name`
fails with `missingRequiredVariantField`, and a document containing such a
record never yields a `Manifest`. -/
theorem dependency_missing_both_fails (j : Json) (p : PreManifest)
    (d : PreManifestDependency)
    (hdec : decodePreManifest j = .ok p)
    (hd : d ∈ p.dependencies)
    (hu : d.uuid = none) (hm : d.module_name = none) :
    normalizeDependency d = .error .missingRequiredVariantField ∧
    ∀ m, deserialize_manifest_from_str j ≠ .ok m := by
  have herr : normalizeDependency d = .error .missingRequiredVariantField := by
    rw [normalizeDependency, hm, hu]
  refine ⟨herr, ?_⟩
  intro m hok
  rw [deserialize_manifest_from_str, exceptBind_eq_ok] at hok
  obtain ⟨pre, hpre, hok⟩ := hok
  rw [hdec] at hpre
  cases hpre
  obtain ⟨_, _, _, _, deps, _, _, _, _, h5, _⟩ := normalizePre_ok hok
  obtain ⟨x, hx⟩ := normalizeDependencies_ok_forall h5 d hd
  rw [herr] at hx
  cases hx

/-- Claim C3 witness: instantiated on `docMissingDep`. -/
theorem dependency_missing_both_fails_witness :
    normalizeDependency ⟨none, none, .Vec [1, 0, 0]⟩ =
      .error .missingRequiredVariantField ∧
    ∀ m, deserialize_manifest_from_str docMissingDep ≠ .ok m :=
  dependency_missing_both_fails docMissingDep preMissingDep
    ⟨none, none, .Vec [1, 0, 0]⟩ rfl (List.mem_singleton.mpr rfl) rfl rfl

/-- A document whose only module is a `script` module without `entry`. -/
def docScriptNoEntry : Json := .obj [
  ("format_version", .num 2),
  ("header", .obj [
    ("name", .str "pack"), ("description", .str "d"),
    ("min_engine_version", .arr [.num 1, .num 20, .num 0]),
    ("uuid", .str "00000000-0000-0000-0000-00000000abcd"),
    ("version", .arr [.num 1, .num 0, .num 0])]),
  ("modules", .arr [
    .obj [("type", .str "script"),
          ("uuid", .str "00000000-0000-0000-0000-000000000001"),
          ("version", .arr [.num 1, .num 0, .num 0])]]),
  ("dependencies", .arr []),
  ("capabilities", .arr []),
  ("subpacks", .arr [])]

/-- The intermediate representation `docScriptNoEntry` decodes to. -/
def preScriptNoEntry : PreManifest :=
  { format_version := 2
    header := ⟨"pack", "d", [1, 20, 0],
               "00000000-0000-0000-0000-00000000abcd", [1, 0, 0]⟩
    modules := [⟨"script", "00000000-0000-0000-0000-000000000001", [1, 0, 0],
                 none, none, none⟩]
    dependencies := []
    capabilities := []
    subpacks := [] }

/-- Claim C5: a `script` module record without `entry` is never accepted or
dropped — the whole decode fails — and (once its uuid and version parse)
the failing record reports `missingRequiredVariantField`. -/
theorem script_module_missing_entry_fails (j : Json) (p : PreManifest)
    (mo : PreManifestModule)
    (hdec : decodePreManifest j = .ok p)
    (hmem : mo ∈ p.modules)
    (ht : mo.type_id = "script") (he : mo.entry = none) :
    (∀ m, deserialize_manifest_from_str j ≠ .ok m) ∧
    ∀ uu vv, parseUuid mo.uuid = .ok uu →
      parse_semver_from_vec mo.version = .ok vv →
      normalizeModule mo = .error .missingRequiredVariantField := by
  constructor
  · intro m hok
    rw [deserialize_manifest_from_str, exceptBind_eq_ok] at hok
    obtain ⟨pre, hpre, hok⟩ := hok
    rw [hdec] at hpre
    cases hpre
    obtain ⟨_, _, _, mods, _, _, _, _, h4, _, _⟩ := normalizePre_ok hok
    obtain ⟨o, ho⟩ := normalizeModules_ok_forall h4 mo hmem
    rw [normalizeModule, if_pos ht, exceptBind_eq_ok] at ho
    obtain ⟨uu, _, ho⟩ := ho
    rw [exceptBind_eq_ok] at ho
    obtain ⟨vv, _, ho⟩ := ho
    rw [he] at ho
    cases ho
  · intro uu vv h1 h2
    rw [normalizeModule, if_pos ht, h1, exceptBind_ok, h2, exceptBind_ok, he]

/-- Claim C5 witness: instantiated on `docScriptNoEntry`. -/
theorem script_module_missing_entry_fails_witness :
    (∀ m, deserialize_manifest_from_str docScriptNoEntry ≠ .ok m) ∧
    normalizeModule ⟨"script", "00000000-0000-0000-0000-000000000001",
        [1, 0, 0], none, none, none⟩ =
      .error .missingRequiredVariantField := by
  have h := script_module_missing_entry_fails docScriptNoEntry preScriptNoEntry
    ⟨"script", "00000000-0000-0000-0000-000000000001", [1, 0, 0],
     none, none, none⟩ rfl (List.mem_singleton.mpr rfl) rfl rfl
  exact ⟨h.1, h.2 ⟨1⟩ ⟨1, 0, 0, false⟩ rfl rfl⟩

/-- Claim C6: a module record with an unrecognized `type` is dropped
without error — normalizing with the record present equals normalizing
with it removed, so the sibling records keep their relative order. -/
theorem unrecognized_module_dropped (p : PreManifest)
    (mods1 mods2 : List PreManifestModule) (bad : PreManifestModule)
    (h1 : bad.type_id ≠ "script") (h2 : bad.type_id ≠ "data")
    (h3 : bad.type_id ≠ "resources") :
    normalizePre { p with modules := mods1 ++ bad :: mods2 } =
      normalizePre { p with modules := mods1 ++ mods2 } := by
  have hbad : normalizeModule bad = .ok none := by
    rw [normalizeModule, if_neg h1, if_neg (by tauto)]
  have key : ∀ m1 m2 : List PreManifestModule,
      normalizeModules (m1 ++ bad :: m2) = normalizeModules (m1 ++ m2) := by
    intro m1
    induction m1 with
    | nil =>
      intro m2
      rw [List.nil_append, List.nil_append, normalizeModules, hbad,
        exceptBind_ok]
    | cons a as ih =>
      intro m2
      simp only [List.cons_append, normalizeModules, List.append_eq, ih]
  simp only [normalizePre, key]

/-- Claim C6 witness: dropping the `"plugin"` record of the example
document's module list changes nothing. -/
theorem unrecognized_module_dropped_witness :
    normalizePre { examplePre with
        modules := [⟨"script", "00000000-0000-0000-0000-000000000001",
                      [1, 0, 0], none, some "main.js", none⟩] ++
          ⟨"plugin", "00000000-0000-0000-0000-000000000002", [1, 0, 0],
            none, none, none⟩ ::
          [⟨"resources", "00000000-0000-0000-0000-000000000003", [2, 1, 3],
            none, none, none⟩] } =
      normalizePre { examplePre with
        modules := [⟨"script", "00000000-0000-0000-0000-000000000001",
                      [1, 0, 0], none, some "main.js", none⟩] ++
          [⟨"resources", "00000000-0000-0000-0000-000000000003", [2, 1, 3],
            none, none, none⟩] } :=
  unrecognized_module_dropped examplePre _ _ _
    (by decide) (by decide) (by decide)

/-- Claim C4: a version string whose (beta-stripped) dot-split has fewer
than three components fails with a malformed-version error. -/
theorem short_version_string_fails (s : String)
    (h : (splitOnChar '.' (removeBeta s.data)).length < 3) :
    parse_semver_from_str s = .error .malformedVersionText := by
  simp only [parse_semver_from_str]
  have h2 : parseComponent (splitOnChar '.' (removeBeta s.data)) 2 =
      .error .malformedVersionText :=
    parseComponent_oob (by omega)
  cases h0 : parseComponent (splitOnChar '.' (removeBeta s.data)) 0 with
  | error e => rw [exceptBind_error, parseComponent_error h0]
  | ok n0 =>
    rw [exceptBind_ok]
    cases h1 : parseComponent (splitOnChar '.' (removeBeta s.data)) 1 with
    | error e => rw [exceptBind_error, parseComponent_error h1]
    | ok n1 => rw [exceptBind_ok, h2, exceptBind_error]

/-- Claim C4 witness: `"1.2"` has two components and fails. -/
theorem short_version_string_fails_witness :
    (splitOnChar '.' (removeBeta "1.2".data)).length < 3 ∧
    parse_semver_from_str "1.2" = .error .malformedVersionText :=
  ⟨by decide, short_version_string_fails "1.2" (by decide)⟩

/-! ### Decimal rendering of integers (used to state the round-trip claim
about version strings of the form `a.b.c`) -/

/-- The pattern `-beta` as a character list. -/
def betaList : List Char := ['-', 'b', 'e', 't', 'a']

/-- Fuel-driven most-significant-first decimal rendering of a natural
number (the fuel only bounds recursion depth; `natRender` supplies
enough). -/
def natRenderAux : Nat → Nat → List Char
  | 0, _ => []
  | fuel + 1, n =>
    if n < 10 then [Nat.digitChar n]
    else natRenderAux fuel (n / 10) ++ [Nat.digitChar (n % 10)]

/-- Decimal rendering of a natural number. -/
def natRender (n : Nat) : List Char := natRenderAux (n + 1) n

/-- Decimal rendering of an integer, as Rust's `Display` for `i32`. -/
def renderInt (z : Int) : List Char :=
  if z < 0 then '-' :: natRender z.natAbs else natRender z.toNat

/-- The string `a.b.c` built from three integers. -/
def dottedTriple (a b c : Int) : String :=
  ⟨renderInt a ++ '.' :: (renderInt b ++ '.' :: renderInt c)⟩

theorem removeBeta_cons_of_head {c : Char} {cs : List Char}
    (h : cs.head? ≠ some 'b') :
    removeBeta (c :: cs) = c :: removeBeta cs := by
  rw [removeBeta.eq_def]
  split
  · next tail heq =>
      injection heq with h1 h2
      rw [h2] at h
      exact absurd rfl h
  · next head tail hno heq =>
      injection heq with h1 h2
      rw [h1, h2]
  · next heq => exact List.noConfusion heq

theorem containsBeta_cons_of_head {c : Char} {cs : List Char}
    (h : cs.head? ≠ some 'b') :
    containsBeta (c :: cs) = containsBeta cs := by
  rw [containsBeta.eq_def]
  split
  · next tail heq =>
      injection heq with h1 h2
      rw [h2] at h
      exact absurd rfl h
  · next head tail hno heq =>
      injection heq with h1 h2
      rw [h2]
  · next heq => exact List.noConfusion heq

theorem containsBeta_of_not_b {s : List Char} (h : 'b' ∉ s) :
    containsBeta s = false := by
  induction s with
  | nil => rfl
  | cons c cs ih =>
    have hc : cs.head? ≠ some 'b' := by
      cases cs with
      | nil => intro hx; cases hx
      | cons d ds =>
        intro hx
        rw [List.head?_cons, Option.some.injEq] at hx
        subst hx
        exact h (List.mem_cons_of_mem _ (List.mem_cons_self _ _))
    rw [containsBeta_cons_of_head hc]
    exact ih fun hb => h (List.mem_cons_of_mem _ hb)

theorem removeBeta_of_not_b {s : List Char} (h : 'b' ∉ s) :
    removeBeta s = s := by
  induction s with
  | nil => rfl
  | cons c cs ih =>
    have hc : cs.head? ≠ some 'b' := by
      cases cs with
      | nil => intro hx; cases hx
      | cons d ds =>
        intro hx
        rw [List.head?_cons, Option.some.injEq] at hx
        subst hx
        exact h (List.mem_cons_of_mem _ (List.mem_cons_self _ _))
    rw [removeBeta_cons_of_head hc]
    rw [ih fun hb => h (List.mem_cons_of_mem _ hb)]

theorem containsBeta_append_beta {body : List Char} (h : 'b' ∉ body) :
    containsBeta (body ++ betaList) = true := by
  induction body with
  | nil => rfl
  | cons c cs ih =>
    have hc : (cs ++ betaList).head? ≠ some 'b' := by
      cases cs with
      | nil => intro hx; cases hx
      | cons d ds =>
        intro hx
        rw [List.cons_append, List.head?_cons, Option.some.injEq] at hx
        subst hx
        exact h (List.mem_cons_of_mem _ (List.mem_cons_self _ _))
    rw [List.cons_append, containsBeta_cons_of_head hc]
    exact ih fun hb => h (List.mem_cons_of_mem _ hb)

theorem removeBeta_append_beta {body : List Char} (h : 'b' ∉ body) :
    removeBeta (body ++ betaList) = body := by
  induction body with
  | nil => rfl
  | cons c cs ih =>
    have hc : (cs ++ betaList).head? ≠ some 'b' := by
      cases cs with
      | nil => intro hx; cases hx
      | cons d ds =>
        intro hx
        rw [List.cons_append, List.head?_cons, Option.some.injEq] at hx
        subst hx
        exact h (List.mem_cons_of_mem _ (List.mem_cons_self _ _))
    rw [List.cons_append, removeBeta_cons_of_head hc]
    rw [ih fun hb => h (List.mem_cons_of_mem _ hb)]

theorem splitOnChar_not_mem {c : Char} {xs : List Char} (h : c ∉ xs) :
    splitOnChar c xs = [xs] := by
  induction xs with
  | nil => rfl
  | cons x xs ih =>
    rw [splitOnChar,
      if_neg fun hx => h (by rw [hx]; exact List.mem_cons_self c xs),
      ih fun hx => h (List.mem_cons_of_mem _ hx)]

theorem splitOnChar_append {c : Char} {xs : List Char} (h : c ∉ xs)
    (ys : List Char) :
    splitOnChar c (xs ++ c :: ys) = xs :: splitOnChar c ys := by
  induction xs with
  | nil => rw [List.nil_append, splitOnChar, if_pos rfl]
  | cons x xs ih =>
    rw [List.cons_append, splitOnChar,
      if_neg fun hx => h (by rw [hx]; exact List.mem_cons_self c xs),
      ih fun hx => h (List.mem_cons_of_mem _ hx)]

theorem digitVal_digitChar {d : Nat} (h : d < 10) :
    digitVal (Nat.digitChar d) = some d := by
  interval_cases d <;> decide

theorem digitChar_ne_minus {d : Nat} (h : d < 10) :
    Nat.digitChar d ≠ '-' := by
  interval_cases d <;> decide

theorem digitChar_ne_plus {d : Nat} (h : d < 10) :
    Nat.digitChar d ≠ '+' := by
  interval_cases d <;> decide

theorem digitChar_ne_dot {d : Nat} (h : d < 10) :
    Nat.digitChar d ≠ '.' := by
  interval_cases d <;> decide

theorem digitChar_ne_b {d : Nat} (h : d < 10) :
    Nat.digitChar d ≠ 'b' := by
  interval_cases d <;> decide

theorem parseDigitsAux_append (a : Nat) (xs ys : List Char) :
    parseDigitsAux a (xs ++ ys) =
      match parseDigitsAux a xs with
      | some b => parseDigitsAux b ys
      | none => none := by
  induction xs generalizing a with
  | nil => rfl
  | cons c cs ih =>
    simp only [List.cons_append, parseDigitsAux, List.append_eq]
    cases hd : digitVal c with
    | some d => simp only [List.append_eq, ih]
    | none => rfl

theorem natRenderAux_spec :
    ∀ fuel n, n < fuel → ∀ a,
      parseDigitsAux a (natRenderAux fuel n) =
        some (a * 10 ^ (natRenderAux fuel n).length + n) := by
  intro fuel
  induction fuel with
  | zero => intro n h; omega
  | succ fuel ih =>
    intro n h a
    rw [natRenderAux]
    by_cases h10 : n < 10
    · rw [if_pos h10]
      simp only [parseDigitsAux, digitVal_digitChar h10, List.length_singleton,
        pow_one]
    · rw [if_neg h10]
      have hdiv : n / 10 < fuel := by
        have := Nat.div_lt_self (show 0 < n by omega) (show 1 < 10 by omega)
        omega
      rw [parseDigitsAux_append, ih (n / 10) hdiv a]
      simp only [parseDigitsAux, digitVal_digitChar (Nat.mod_lt n (by omega)),
        List.length_append, List.length_singleton]
      have hmod : 10 * (n / 10) + n % 10 = n := Nat.div_add_mod n 10
      have hpow : (10 : Nat) ^ ((natRenderAux fuel (n / 10)).length + 1) =
          10 ^ (natRenderAux fuel (n / 10)).length * 10 := pow_succ 10 _
      congr 1
      rw [hpow]
      ring_nf
      omega

theorem natRenderAux_ne_nil {fuel n : Nat} (h : n < fuel) :
    natRenderAux fuel n ≠ [] := by
  cases fuel with
  | zero => omega
  | succ fuel =>
    rw [natRenderAux]
    by_cases h10 : n < 10
    · rw [if_pos h10]; exact List.cons_ne_nil _ _
    · rw [if_neg h10]
      intro hx
      exact List.cons_ne_nil _ _ (List.append_eq_nil.mp hx).2

theorem natRenderAux_chars :
    ∀ fuel n, ∀ c ∈ natRenderAux fuel n, ∃ d, d < 10 ∧ c = Nat.digitChar d := by
  intro fuel
  induction fuel with
  | zero => intro n c hc; cases hc
  | succ fuel ih =>
    intro n c hc
    rw [natRenderAux] at hc
    by_cases h10 : n < 10
    · rw [if_pos h10] at hc
      rcases List.mem_singleton.mp hc with rfl
      exact ⟨n, h10, rfl⟩
    · rw [if_neg h10] at hc
      rcases List.mem_append.mp hc with hc | hc
      · exact ih _ c hc
      · rcases List.mem_singleton.mp hc with rfl
        exact ⟨n % 10, Nat.mod_lt n (by omega), rfl⟩

theorem parseDigits_natRender (n : Nat) :
    parseDigits (natRender n) = some n := by
  have hne := natRenderAux_ne_nil (show n < n + 1 by omega)
  have hsp := natRenderAux_spec (n + 1) n (by omega) 0
  rw [natRender]
  cases hr : natRenderAux (n + 1) n with
  | nil => exact absurd hr hne
  | cons c cs =>
    rw [hr] at hsp
    show parseDigitsAux 0 (c :: cs) = some n
    rw [hsp]
    simp

theorem natRender_chars {n : Nat} {c : Char} (h : c ∈ natRender n) :
    ∃ d, d < 10 ∧ c = Nat.digitChar d :=
  natRenderAux_chars (n + 1) n c h

theorem renderInt_chars {z : Int} {c : Char} (h : c ∈ renderInt z) :
    c = '-' ∨ ∃ d, d < 10 ∧ c = Nat.digitChar d := by
  rw [renderInt] at h
  by_cases hz : z < 0
  · rw [if_pos hz] at h
    rcases List.mem_cons.mp h with rfl | h
    · exact .inl rfl
    · exact .inr (natRender_chars h)
  · rw [if_neg hz] at h
    exact .inr (natRender_chars h)

theorem dot_not_mem_renderInt (z : Int) : '.' ∉ renderInt z := by
  intro h
  rcases renderInt_chars h with h | ⟨d, hd, h⟩
  · cases h
  · exact digitChar_ne_dot hd h.symm

theorem b_not_mem_renderInt (z : Int) : 'b' ∉ renderInt z := by
  intro h
  rcases renderInt_chars h with h | ⟨d, hd, h⟩
  · cases h
  · exact digitChar_ne_b hd h.symm

theorem parseI32_natRender {n : Nat} (h : (n : Int) < 2 ^ 31) :
    parseI32 (natRender n) = some (n : Int) := by
  have hne := natRenderAux_ne_nil (show n < n + 1 by omega)
  have hpd := parseDigits_natRender n
  have hch : ∀ c ∈ natRender n, ∃ d, d < 10 ∧ c = Nat.digitChar d :=
    fun c hc => natRender_chars hc
  rw [natRender] at hpd hch ⊢
  cases hr : natRenderAux (n + 1) n with
  | nil => exact absurd hr hne
  | cons c cs =>
    rw [hr] at hpd hch
    obtain ⟨d, hd, rfl⟩ := hch _ (List.mem_cons_self _ _)
    rw [parseI32, if_neg (digitChar_ne_minus hd), if_neg (digitChar_ne_plus hd),
      hpd]
    rw [Option.some_bind, if_pos h]

theorem parseI32_renderInt {z : Int} (h1 : -(2 ^ 31) ≤ z) (h2 : z < 2 ^ 31) :
    parseI32 (renderInt z) = some z := by
  rw [renderInt]
  by_cases hz : z < 0
  · rw [if_pos hz, parseI32, if_pos rfl, parseDigits_natRender]
    have habs : (z.natAbs : Int) = -z := Int.ofNat_natAbs_of_nonpos (le_of_lt hz)
    rw [Option.some_bind, if_pos (by omega), habs, neg_neg]
  · rw [if_neg hz]
    have htn : ((z.toNat : Int)) = z := Int.toNat_of_nonneg (by omega)
    rw [parseI32_natRender (by omega), htn]

theorem parseComponent_of_get {l : List (List Char)} {i : Nat}
    {cs : List Char} {n : Int}
    (h1 : l.get? i = some cs) (h2 : parseI32 cs = some n) :
    parseComponent l i = .ok n := by
  rw [parseComponent, listIdx, h1, exceptBind_ok, h2]

theorem b_not_mem_body (a b c : Int) :
    'b' ∉ renderInt a ++ '.' :: (renderInt b ++ '.' :: renderInt c) := by
  intro h
  rcases List.mem_append.mp h with h | h
  · exact b_not_mem_renderInt a h
  · rcases List.mem_cons.mp h with h | h
    · cases h
    · rcases List.mem_append.mp h with h | h
      · exact b_not_mem_renderInt b h
      · rcases List.mem_cons.mp h with h | h
        · cases h
        · exact b_not_mem_renderInt c h

theorem split_body (a b c : Int) :
    splitOnChar '.' (renderInt a ++ '.' :: (renderInt b ++ '.' :: renderInt c)) =
      [renderInt a, renderInt b, renderInt c] := by
  rw [splitOnChar_append (dot_not_mem_renderInt a),
    splitOnChar_append (dot_not_mem_renderInt b),
    splitOnChar_not_mem (dot_not_mem_renderInt c)]

/-- Claim C8 counterexample: `"2147483648.0.0"` has the shape `a.b.c` for
the integer `a = 2147483648`, but that component exceeds the `i32` range,
so the parser fails instead of returning a version. -/
theorem version_i32_overflow :
    parse_semver_from_str "2147483648.0.0" = .error .malformedVersionText := rfl

/-- Claim C8 (amended): for all integers `a`, `b`, `c` within the `i32`
range, the string `a.b.c` parses to `{major a, minor b, patch c}` with
`beta = false`, and `a.b.c-beta` parses the same with `beta = true`. -/
theorem version_string_roundtrip (a b c : Int)
    (ha1 : -(2 ^ 31) ≤ a) (ha2 : a < 2 ^ 31)
    (hb1 : -(2 ^ 31) ≤ b) (hb2 : b < 2 ^ 31)
    (hc1 : -(2 ^ 31) ≤ c) (hc2 : c < 2 ^ 31) :
    parse_semver_from_str (dottedTriple a b c) =
      .ok { major := a, minor := b, patch := c, beta := false } ∧
    parse_semver_from_str ⟨(dottedTriple a b c).data ++ betaList⟩ =
      .ok { major := a, minor := b, patch := c, beta := true } := by
  have hb := b_not_mem_body a b c
  have p0 : parseComponent [renderInt a, renderInt b, renderInt c] 0 = .ok a :=
    parseComponent_of_get rfl (parseI32_renderInt ha1 ha2)
  have p1 : parseComponent [renderInt a, renderInt b, renderInt c] 1 = .ok b :=
    parseComponent_of_get rfl (parseI32_renderInt hb1 hb2)
  have p2 : parseComponent [renderInt a, renderInt b, renderInt c] 2 = .ok c :=
    parseComponent_of_get rfl (parseI32_renderInt hc1 hc2)
  constructor
  · simp only [parse_semver_from_str, dottedTriple]
    rw [containsBeta_of_not_b hb, removeBeta_of_not_b hb, split_body,
      p0, exceptBind_ok, p1, exceptBind_ok, p2, exceptBind_ok]
  · simp only [parse_semver_from_str, dottedTriple]
    rw [containsBeta_append_beta hb, removeBeta_append_beta hb, split_body,
      p0, exceptBind_ok, p1, exceptBind_ok, p2, exceptBind_ok]

/-- Claim C8 witness: instantiated at `1.2.3`. -/
theorem version_string_roundtrip_witness :
    (-(2 ^ 31) ≤ (1 : Int) ∧ (1 : Int) < 2 ^ 31 ∧
      -(2 ^ 31) ≤ (2 : Int) ∧ (2 : Int) < 2 ^ 31 ∧
      -(2 ^ 31) ≤ (3 : Int) ∧ (3 : Int) < 2 ^ 31) ∧
    parse_semver_from_str (dottedTriple 1 2 3) =
      .ok { major := 1, minor := 2, patch := 3, beta := false } ∧
    parse_semver_from_str ⟨(dottedTriple 1 2 3).data ++ betaList⟩ =
      .ok { major := 1, minor := 2, patch := 3, beta := true } := by
  have h := version_string_roundtrip 1 2 3 (by decide) (by decide) (by decide)
    (by decide) (by decide) (by decide)
  exact ⟨by decide, h.1, h.2⟩

/-- The header object of a document whose header `version` is a dotted
string. -/
def headerFieldsStrVersion : List (String × Json) :=
  [("name", .str "pack"), ("description", .str "d"),
   ("min_engine_version", .arr [.num 1, .num 20, .num 0]),
   ("uuid", .str "00000000-0000-0000-0000-00000000abcd"),
   ("version", .str "1.0.0")]

/-- A document identical to `exampleDoc`'s frame but whose header `version`
is the dotted string `"1.0.0"`. -/
def fieldsStrVersion : List (String × Json) :=
  [("format_version", .num 2),
   ("header", .obj headerFieldsStrVersion),
   ("modules", .arr []), ("dependencies", .arr []),
   ("capabilities", .arr []), ("subpacks", .arr [])]

def docStrHeaderVersion : Json := .obj fieldsStrVersion

/-- Claim C1 counterexample: a document whose header `version` is the
dotted string `"1.0.0"` does not decode successfully — the header version
fields accept only the three-integer-array encoding. -/
theorem header_string_version_rejected :
    deserialize_manifest_from_str docStrHeaderVersion =
      .error .structuralDecodeError := rfl

/-- Claim C1 (amended): the *dependency* `version` field is detected
per-occurrence in either encoding (string or integer array), but the two
*header* version fields are typed as integer arrays only: every document
whose header `version` is a string fails to decode. -/
theorem version_encoding_detection :
    (∀ s, decodePreVer (.str s) = .ok (.Str s)) ∧
    (∀ v : List Int, (∀ n ∈ v, -(2 ^ 31) ≤ n ∧ n < 2 ^ 31) →
      decodePreVer (.arr (v.map .num)) = .ok (.Vec v)) ∧
    ∀ fields hfields s, getField fields "header" = some (.obj hfields) →
      getField hfields "version" = some (.str s) →
      ∀ m, deserialize_manifest_from_str (.obj fields) ≠ .ok m := by
  refine ⟨fun s => rfl, ?_, ?_⟩
  · intro v h
    simp only [decodePreVer, decodeVecI32, mapME_map_num h]
  · intro fields hfields s hh hv m hok
    rw [deserialize_manifest_from_str, exceptBind_eq_ok] at hok
    obtain ⟨pre, hpre, _⟩ := hok
    rw [decodePreManifest, exceptBind_eq_ok] at hpre
    obtain ⟨jfv, _, hpre⟩ := hpre
    rw [exceptBind_eq_ok] at hpre
    obtain ⟨fv, _, hpre⟩ := hpre
    rw [exceptBind_eq_ok] at hpre
    obtain ⟨jh, hjh, hpre⟩ := hpre
    rw [exceptBind_eq_ok] at hpre
    obtain ⟨hdr, hhdr, _⟩ := hpre
    rw [reqField, hh] at hjh
    cases hjh
    rw [decodePreManifestHeader, exceptBind_eq_ok] at hhdr
    obtain ⟨jn, _, hhdr⟩ := hhdr
    rw [exceptBind_eq_ok] at hhdr
    obtain ⟨nm, _, hhdr⟩ := hhdr
    rw [exceptBind_eq_ok] at hhdr
    obtain ⟨jd, _, hhdr⟩ := hhdr
    rw [exceptBind_eq_ok] at hhdr
    obtain ⟨ds, _, hhdr⟩ := hhdr
    rw [exceptBind_eq_ok] at hhdr
    obtain ⟨jme, _, hhdr⟩ := hhdr
    rw [exceptBind_eq_ok] at hhdr
    obtain ⟨mev, _, hhdr⟩ := hhdr
    rw [exceptBind_eq_ok] at hhdr
    obtain ⟨ju, _, hhdr⟩ := hhdr
    rw [exceptBind_eq_ok] at hhdr
    obtain ⟨uu, _, hhdr⟩ := hhdr
    rw [exceptBind_eq_ok] at hhdr
    obtain ⟨jv, hjv, hhdr⟩ := hhdr
    rw [exceptBind_eq_ok] at hhdr
    obtain ⟨vv, hvv, _⟩ := hhdr
    rw [reqField, hv] at hjv
    cases hjv
    cases hvv

/-- Claim C1 witness: the three parts instantiated at `"1.0.0"`, at the
array `[1, 0, 0]`, and at `docStrHeaderVersion`. -/
theorem version_encoding_detection_witness :
    decodePreVer (.str "1.0.0") = .ok (.Str "1.0.0") ∧
    decodePreVer (.arr [.num 1, .num 0, .num 0]) = .ok (.Vec [1, 0, 0]) ∧
    ∀ m, deserialize_manifest_from_str docStrHeaderVersion ≠ .ok m :=
  ⟨version_encoding_detection.1 "1.0.0",
   version_encoding_detection.2.1 [1, 0, 0] (by decide),
   version_encoding_detection.2.2 fieldsStrVersion headerFieldsStrVersion
     "1.0.0" rfl rfl⟩

/-- A document whose only dependency has a `version` that is neither an
integer array nor a string (`null`). -/
def docNullDepVersion : Json := .obj [
  ("format_version", .num 2),
  ("header", .obj [
    ("name", .str "pack"), ("description", .str "d"),
    ("min_engine_version", .arr [.num 1, .num 20, .num 0]),
    ("uuid", .str "00000000-0000-0000-0000-00000000abcd"),
    ("version", .arr [.num 1, .num 0, .num 0])]),
  ("modules", .arr []),
  ("dependencies", .arr [
    .obj [("module_name", .str "@minecraft/server"), ("version", .null)]]),
  ("capabilities", .arr []),
  ("subpacks", .arr [])]

/-- Claim C2 counterexample: a dependency whose `version` is neither
recognizable encoding makes the whole decode fail with a structural error —
no default version `1.0.0` is substituted. -/
theorem dep_version_neither_encoding_fails :
    deserialize_manifest_from_str docNullDepVersion =
      .error .structuralDecodeError := rfl

/-- Claim C2 (amended): a raw dependency `version` that is neither an
integer array nor a string is a structural decode failure, so the
normalizer's default-version fallback branch is unreachable: every
successfully normalized dependency carries a version obtained by parsing
the encoding actually present in the record. -/
theorem dep_version_fallback_unreachable :
    (∀ j e, decodeVecI32 j = .error e → (∀ s, j ≠ .str s) →
      decodePreVer j = .error .structuralDecodeError) ∧
    ∀ d x, normalizeDependency d = .ok x →
      ∃ v, depVersion d.version = .ok v ∧
        ((∃ nm, x = .ScriptDependency nm v) ∨
          ∃ uu, x = .UuidDependency uu v) := by
  constructor
  · intro j e h hns
    rw [decodePreVer, h]
    cases j with
    | str s => exact absurd rfl (hns s)
    | _ => rfl
  · intro d x h
    rw [normalizeDependency] at h
    cases hm : d.module_name with
    | some mn =>
      rw [hm] at h
      rw [exceptBind_eq_ok] at h
      obtain ⟨v, hv, h⟩ := h
      cases h
      exact ⟨v, hv, .inl ⟨_, rfl⟩⟩
    | none =>
      rw [hm] at h
      cases hu : d.uuid with
      | some u =>
        rw [hu] at h
        rw [exceptBind_eq_ok] at h
        obtain ⟨uu, _, h⟩ := h
        rw [exceptBind_eq_ok] at h
        obtain ⟨v, hv, h⟩ := h
        cases h
        exact ⟨v, hv, .inr ⟨uu, rfl⟩⟩
      | none =>
        rw [hu] at h
        cases h

/-- Claim C2 witness: instantiated at `null` and at the example script
dependency. -/
theorem dep_version_fallback_unreachable_witness :
    decodePreVer .null = .error .structuralDecodeError ∧
    ∃ v, depVersion (PreVer.Str "1.2.0-beta") = .ok v ∧
      ((∃ nm, ManifestDependency.ScriptDependency .MinecraftServer
          ⟨1, 2, 0, true⟩ = .ScriptDependency nm v) ∨
        ∃ uu, ManifestDependency.ScriptDependency .MinecraftServer
          ⟨1, 2, 0, true⟩ = .UuidDependency uu v) :=
  ⟨dep_version_fallback_unreachable.1 .null .structuralDecodeError rfl
     (fun _ h => Json.noConfusion h),
   dep_version_fallback_unreachable.2
     ⟨none, some "@minecraft/server", .Str "1.2.0-beta"⟩
     (.ScriptDependency .MinecraftServer ⟨1, 2, 0, true⟩) rfl⟩
